import Mathlib

/-!
# OpenMW: animation playback state and the ESM probe record

A shallow embedding of

* `apps/openmw/mwrender/animation.hpp` : the bone-group enumeration, the
  null controller value, the per-group playback state `AnimState`, and the
  state table `AnimStateMap` (a `std::map` keyed by group name);
* `components/esm/loadprob.cpp` : `Probe::load`, `Probe::save`, `Probe::blank`.

Conventions of the embedding

* C++ `float` (and `Ogre::Real`) is represented by exact rationals.  The code
  embedded here only stores such values, compares them, and uses the literals
  `0.0f` and `1.0f`, all of which are exact in IEEE-754 binary32.
* C++ `int` is `Int`, `size_t` is `Nat`; no arithmetic is performed on them.
* `std::string` is `String`; `std::string::operator<` is the lexicographic
  order on the characters.
* A member function that mutates its object returns the new object.
-/

/-- The C++ type `float`, represented by exact rationals. -/
abbrev CFloat := Rat

namespace Ogre

/-- Type `Ogre::Real`, a C++ `float`. -/
abbrev Real := CFloat

end Ogre

/-! ## `std::map<std::string, V>`

The container of the C++ standard library: its entries are kept, and iterated,
in strictly increasing order of the key under `std::less<std::string>`, and a
key occurs at most once.  For strings holding UTF-8 text the byte-wise
comparison of `std::string` agrees with the comparison of the characters used
here. -/

namespace StdMap

/-- Comparison `std::string::operator<` : lexicographic comparison of the characters. -/
def strLt (a b : String) : Bool := decide (a.toList < b.toList)

/-- The entries of a `std::map<std::string, V>` in iteration order
(`begin()` to `end()`). -/
abbrev Entries (V : Type) := List (String × V)

/-- Assignment `m[k] = v` : the entry for `k` is created at its place in the key order,
or overwritten when it exists. -/
def assign {V : Type} (k : String) (v : V) : Entries V → Entries V
  | [] => [(k, v)]
  | (k', v') :: rest =>
    if strLt k k' then (k, v) :: (k', v') :: rest
    else if k = k' then (k, v) :: rest
    else (k', v') :: assign k v rest

/-- Member `m.erase(k)`. -/
def erase {V : Type} (k : String) : Entries V → Entries V
  | [] => []
  | (k', v') :: rest => if k = k' then rest else (k', v') :: erase k rest

/-- Member `m.find(k)` : the mapped value, `none` for `end()`. -/
def find {V : Type} (k : String) : Entries V → Option V
  | [] => none
  | (k', v') :: rest => if k = k' then some v' else find k rest

/-- The keys in iteration order. -/
def keys {V : Type} (m : Entries V) : List String := m.map Prod.fst

/-- The representation invariant of a `std::map` : the keys of the entries
increase strictly along the iteration order. -/
def Ordered {V : Type} (m : Entries V) : Prop :=
  m.Pairwise (fun a b => strLt a.1 b.1 = true)

/-- The map obtained from the empty map by the assignments `m[k] = v` made in
the order of the list. -/
def ofInserts {V : Type} (ins : List (String × V)) : Entries V :=
  ins.foldl (fun m kv => assign kv.1 kv.2 m) []

end StdMap

namespace MWRender

namespace Animation

/-! ## `enum Group` and `sNumGroups` -/

def Group_LowerBody : Nat := 1 <<< 0

def Group_Torso : Nat := 1 <<< 1

def Group_LeftArm : Nat := 1 <<< 2

def Group_RightArm : Nat := 1 <<< 3

def Group_UpperBody : Nat := Group_Torso ||| Group_LeftArm ||| Group_RightArm

def Group_All : Nat := Group_LowerBody ||| Group_UpperBody

/-- This is the number of *discrete* groups. -/
def sNumGroups : Nat := 4

/-- The enumerators that name a discrete group, in declaration order. -/
def discreteGroups : List Nat :=
  [Group_LowerBody, Group_Torso, Group_LeftArm, Group_RightArm]

/-! ## `NullAnimationValue` -/

/-- Class `NullAnimationValue` : a controller value without data members. -/
structure NullAnimationValue where
  deriving DecidableEq

/-- Member `virtual Ogre::Real getValue() const { return 0.0f; }`. -/
def NullAnimationValue.getValue (_self : NullAnimationValue) : Ogre.Real := 0

/-- Member `virtual void setValue(Ogre::Real value) { }`. -/
def NullAnimationValue.setValue (self : NullAnimationValue) (_value : Ogre.Real) :
    NullAnimationValue := self

/-! ## `AnimSource`, `AnimState`, `AnimStateMap` -/

/-- Modelled from the spec: `NifOgre::TextKeyMap` is declared in
`components/nifogre`, which is not part of the sources at hand.  The spec
describes it as an ordered marker map, time to label, where labels may repeat
with distinct times: the list of markers in increasing time order. -/
abbrev TextKeyMap := List (CFloat × String)

/-- Struct `AnimSource`.  The controllers are opaque pose evaluators and carry
no information used here. -/
structure AnimSource where
  mTextKeys : TextKeyMap
  deriving DecidableEq

/-- Struct `AnimState`.  `mSource` is a shared pointer, `none` when null. -/
structure AnimState where
  mSource : Option AnimSource
  mStartTime : CFloat
  mLoopStartTime : CFloat
  mLoopStopTime : CFloat
  mStopTime : CFloat
  mTime : CFloat
  mSpeedMult : CFloat
  mPlaying : Bool
  mLoopCount : Nat
  mPriority : Int
  mGroups : Int
  mAutoDisable : Bool
  deriving DecidableEq

set_option linter.dupNamespace false in
/-- The constructor `AnimState()`. -/
def AnimState.AnimState : AnimState :=
  { mSource := none
    mStartTime := 0, mLoopStartTime := 0, mLoopStopTime := 0, mStopTime := 0
    mTime := 0, mSpeedMult := 1, mPlaying := false, mLoopCount := 0
    mPriority := 0, mGroups := 0, mAutoDisable := true }

/-- Table type `typedef std::map<std::string,AnimState> AnimStateMap;`. -/
abbrev AnimStateMap := StdMap.Entries AnimState

end Animation

/-- The data members of `class Animation` that the playback state table
depends on: the animation sources in order of addition, and the table. -/
structure Animation where
  mAnimSources : List Animation.AnimSource
  mStates : Animation.AnimStateMap
  deriving DecidableEq

namespace Animation

/-- What a call of a C++ member function hands back to its caller: nothing for
a function declared `void`, or a `bool`. -/
inductive Returned where
  | void
  | bool (b : Bool)
  deriving DecidableEq

/-- Modelled from the spec: the timestamp a marker label resolves to in an
ordered marker map, the first marker carrying the label. -/
def findMarker (keys : TextKeyMap) (label : String) : Option CFloat :=
  (keys.find? (fun k => k.2 = label)).map Prod.fst

/-- Modelled from the spec: the timestamp of the first marker labelled `label`
inside the interval from `lo` to `hi`, and `fallback` when there is none. -/
def findLoopMarker (keys : TextKeyMap) (label : String) (lo hi fallback : CFloat) :
    CFloat :=
  match keys.find? (fun k => k.2 = label && lo ≤ k.1 && k.1 ≤ hi) with
  | some k => k.1
  | none => fallback

/-- Modelled from the spec: the body of `Animation::reset` is in
`animation.cpp`, which is not part of the sources at hand; the header declares
`bool reset(AnimState &state, const NifOgre::TextKeyMap &keys, const
std::string &groupname, const std::string &start, const std::string &stop,
float startpoint)` and documents that it returns false if a marker is not
found or if the markers are the same.  Following the spec, the two labels are
resolved in `keys`; a zero-length interval is rejected; otherwise the interval,
the loop markers inside it (falling back to the start/stop pair) and the
current time `startTime + startpoint * (stopTime - startTime)` are stored. -/
def reset (state : AnimState) (keys : TextKeyMap) (_groupname start stop : String)
    (startpoint : CFloat) : Bool × AnimState :=
  match findMarker keys start, findMarker keys stop with
  | some t0, some t1 =>
    if t0 = t1 then (false, state)
    else
      (true,
        { state with
          mStartTime := t0
          mStopTime := t1
          mLoopStartTime := findLoopMarker keys "loop start" t0 t1 t0
          mLoopStopTime := findLoopMarker keys "loop stop" t0 t1 t1
          mTime := t0 + startpoint * (t1 - t0) })
  | _, _ => (false, state)

/-- Modelled from the spec: whether a source contains both markers. -/
def hasMarkerPair (src : AnimSource) (start stop : String) : Bool :=
  (findMarker src.mTextKeys start).isSome && (findMarker src.mTextKeys stop).isSome

/-- Modelled from the spec: the source in which `play` resolves the marker
pair, searching the sources most-recently-added first. -/
def findSource (sources : List AnimSource) (start stop : String) : Option AnimSource :=
  sources.reverse.find? (fun src => hasMarkerPair src start stop)

/-- Modelled from the spec: the body of `Animation::play` is in
`animation.cpp`, which is not part of the sources at hand; the header declares
`void play(const std::string &groupname, int priority, int groups, bool
autodisable, float speedmult, const std::string &start, const std::string
&stop, float startpoint, size_t loops)`, so nothing is returned.  Following the
spec, the sources are searched most-recently-added first for the marker pair;
when it is found and `reset` accepts it, the state for `groupname` is inserted
or overwritten; otherwise the object is left as it was. -/
def play (self : Animation) (groupname : String) (priority groups : Int)
    (autodisable : Bool) (speedmult : CFloat) (start stop : String)
    (startpoint : CFloat) (loops : Nat) : Returned × Animation :=
  match findSource self.mAnimSources start stop with
  | none => (Returned.void, self)
  | some src =>
    match reset AnimState.AnimState src.mTextKeys groupname start stop startpoint with
    | (true, state) =>
      (Returned.void,
        { self with
          mStates :=
            StdMap.assign groupname
              { state with
                mSource := some src
                mSpeedMult := speedmult
                mLoopCount := loops
                mPlaying := true
                mPriority := priority
                mGroups := groups
                mAutoDisable := autodisable }
              self.mStates })
    | (false, _) => (Returned.void, self)

/-- Modelled from the spec: the body of `Animation::disable` is in
`animation.cpp`, which is not part of the sources at hand; the header declares
`void disable(const std::string &groupname)`.  Following the spec, the state
of the group is removed from the table. -/
def disable (self : Animation) (groupname : String) : Returned × Animation :=
  (Returned.void, { self with mStates := StdMap.erase groupname self.mStates })

/-- A call of one of the two public operations that change the state table. -/
inductive Call where
  | play (groupname : String) (priority groups : Int) (autodisable : Bool)
      (speedmult : CFloat) (start stop : String) (startpoint : CFloat) (loops : Nat)
  | disable (groupname : String)

/-- The object after one call. -/
def Call.apply (self : Animation) : Call → Animation
  | Call.play g p gr ad sm st sp fr l => (Animation.play self g p gr ad sm st sp fr l).2
  | Call.disable g => (Animation.disable self g).2

/-- The object after a sequence of calls, made in the order of the list. -/
def run (self : Animation) (calls : List Call) : Animation :=
  calls.foldl Call.apply self

/-- A freshly constructed object: the given sources, no playback state. -/
def fresh (sources : List AnimSource) : Animation :=
  { mAnimSources := sources, mStates := [] }

/-- An example state: playing on all regions with priority 1. -/
def exampleState : AnimState :=
  { AnimState.AnimState with mPlaying := true, mPriority := 1, mGroups := Group_All }

/-- The example source of the specification: an attack that starts at 0, hits
at 0.3 and stops at 1. -/
def exampleSource : AnimSource :=
  { mTextKeys := [(0, "attack: start"), (3 / 10, "attack: hit"), (1, "attack: stop")] }

/-- An example source that has a start marker but no stop marker. -/
def exampleSourceNoStop : AnimSource :=
  { mTextKeys := [(0, "attack: start"), (1, "attack: hit")] }

/-- An example source whose start and stop markers carry the same timestamp. -/
def exampleSourceZeroLength : AnimSource :=
  { mTextKeys := [(2, "attack: start"), (2, "attack: stop")] }

end Animation

end MWRender

/-! ## The ESM probe record -/

namespace ESM

/-- Modelled from the spec: `loadprob.hpp` is not part of the sources at hand.
The members of `Probe::Data` are the four that `Probe::blank` resets; they are
typed like the members of the sibling record `Potion::ALDTstruct` of
`loadalch.hpp` (a `float` weight, `int` counters), four 4-byte members for the
16 bytes of the `PBDT` sub-record. -/
structure Probe.Data where
  mWeight : CFloat
  mValue : Int
  mQuality : CFloat
  mUses : Int
  deriving DecidableEq

/-- Modelled from the spec: `loadprob.hpp` is not part of the sources at hand.
The members of `Probe` are those `loadprob.cpp` uses, with the ID member that
the sibling record `Potion` of `loadalch.hpp` declares next to them. -/
structure Probe where
  mData : Probe.Data
  mId : String
  mName : String
  mModel : String
  mIcon : String
  mScript : String
  deriving DecidableEq

/-- Modelled from the spec: the content of a sub-record, a string or a block
of record data together with its size in bytes. -/
inductive SubData where
  | string (s : String)
  | data (d : Probe.Data) (size : Nat)
  deriving DecidableEq

/-- Modelled from the spec: a sub-record, a four-letter tag and its content. -/
structure SubRecord where
  name : String
  content : SubData
  deriving DecidableEq

/-- Modelled from the spec: `esmwriter.hpp` is not part of the sources at
hand.  The writer is the sequence of sub-records written so far. -/
structure ESMWriter where
  written : List SubRecord
  deriving DecidableEq

/-- Modelled from the spec: `esmreader.hpp` is not part of the sources at
hand.  The reader is the sequence of sub-records still to be read. -/
structure ESMReader where
  pending : List SubRecord
  deriving DecidableEq

/-- Modelled from the spec: writes the sub-record `name` holding the string;
the sub-record is written also for the empty string. -/
def ESMWriter.writeHNCString (esm : ESMWriter) (name data : String) : ESMWriter :=
  { written := esm.written ++ [{ name := name, content := SubData.string data }] }

/-- Modelled from the spec: writes the optional sub-record `name` holding the
string, and nothing when the string is empty. -/
def ESMWriter.writeHNOString (esm : ESMWriter) (name data : String) : ESMWriter :=
  if data = "" then esm
  else { written := esm.written ++ [{ name := name, content := SubData.string data }] }

/-- Modelled from the spec: writes the optional sub-record `name` holding the
string, and nothing when the string is empty. -/
def ESMWriter.writeHNOCString (esm : ESMWriter) (name data : String) : ESMWriter :=
  if data = "" then esm else esm.writeHNCString name data

/-- Modelled from the spec: writes the sub-record `name` holding `size` bytes
of record data. -/
def ESMWriter.writeHNT (esm : ESMWriter) (name : String) (data : Probe.Data)
    (size : Nat) : ESMWriter :=
  { written := esm.written ++ [{ name := name, content := SubData.data data size }] }

/-- Modelled from the spec: reads the string of the next sub-record, which
must be named `name`. -/
def ESMReader.getHNString (esm : ESMReader) (name : String) :
    Except String (String × ESMReader) :=
  match esm.pending with
  | { name := n, content := SubData.string s } :: rest =>
    if n = name then Except.ok (s, { pending := rest })
    else Except.error ("Expected subrecord " ++ name ++ " but got " ++ n)
  | _ => Except.error ("Expected subrecord " ++ name)

/-- Modelled from the spec: reads the string of the next sub-record when it is
named `name`; otherwise nothing is consumed and the string is empty. -/
def ESMReader.getHNOString (esm : ESMReader) (name : String) :
    Except String (String × ESMReader) :=
  match esm.pending with
  | { name := n, content := c } :: rest =>
    if n = name then
      match c with
      | SubData.string s => Except.ok (s, { pending := rest })
      | SubData.data _ _ => Except.error ("Subrecord " ++ name ++ " is not a string")
    else Except.ok ("", esm)
  | [] => Except.ok ("", esm)

/-- Modelled from the spec: reads the record data of the next sub-record,
which must be named `name` and be `size` bytes long. -/
def ESMReader.getHNT (esm : ESMReader) (name : String) (size : Nat) :
    Except String (Probe.Data × ESMReader) :=
  match esm.pending with
  | { name := n, content := SubData.data d sz } :: rest =>
    if n = name then
      if sz = size then Except.ok (d, { pending := rest })
      else Except.error "record size mismatch"
    else Except.error ("Expected subrecord " ++ name ++ " but got " ++ n)
  | _ => Except.error ("Expected subrecord " ++ name)

/-- Function `void Probe::load(ESMReader &esm)`. -/
def Probe.load (self : Probe) (esm : ESMReader) : Except String (Probe × ESMReader) := do
  let (mModel, esm) ← esm.getHNString "MODL"
  let (mName, esm) ← esm.getHNString "FNAM"
  let (mData, esm) ← esm.getHNT "PBDT" 16
  let (mScript, esm) ← esm.getHNOString "SCRI"
  let (mIcon, esm) ← esm.getHNOString "ITEX"
  pure
    ({ self with
        mModel := mModel, mName := mName, mData := mData
        mScript := mScript, mIcon := mIcon },
      esm)

/-- Function `void Probe::save(ESMWriter &esm)`. -/
def Probe.save (self : Probe) (esm : ESMWriter) : ESMWriter :=
  let esm := esm.writeHNCString "MODL" self.mModel
  let esm := esm.writeHNCString "FNAM" self.mName
  let esm := esm.writeHNT "PBDT" self.mData 16
  let esm := esm.writeHNOString "SCRI" self.mScript
  esm.writeHNOCString "ITEX" self.mIcon

/-- Function `void Probe::blank()`. -/
def Probe.blank (self : Probe) : Probe :=
  { self with
    mData := { mWeight := 0, mValue := 0, mQuality := 0, mUses := 0 }
    mName := ""
    mModel := ""
    mIcon := ""
    mScript := "" }

/-- The sub-records a reader finds in what a writer has written. -/
def ESMWriter.reader (esm : ESMWriter) : ESMReader := { pending := esm.written }

end ESM

/-! # Properties -/

namespace StdMap

theorem strLt_irrefl (a : String) : strLt a a = false := by
  simp [strLt]

theorem strLt_trans {a b c : String} (hab : strLt a b = true) (hbc : strLt b c = true) :
    strLt a c = true := by
  simp only [strLt, decide_eq_true_eq] at *
  exact lt_trans hab hbc

theorem strLt_of_not {a b : String} (hab : strLt a b = false) (hne : a ≠ b) :
    strLt b a = true := by
  simp only [strLt, decide_eq_true_eq, decide_eq_false_iff_not, not_lt] at *
  exact lt_of_le_of_ne hab (fun h => hne (String.toList_inj.mp h).symm)

theorem strLt_ne {a b : String} (hab : strLt a b = true) : a ≠ b := by
  intro h
  subst h
  simp [strLt_irrefl] at hab

theorem mem_assign {V : Type} (k : String) (v : V) (m : Entries V) (e : String × V)
    (he : e ∈ assign k v m) : e = (k, v) ∨ e ∈ m := by
  induction m with
  | nil => simpa [assign] using he
  | cons hd tl ih =>
    obtain ⟨k', v'⟩ := hd
    simp only [assign] at he
    split_ifs at he with h1 h2
    · simpa using he
    · rcases List.mem_cons.mp he with h | h
      · exact Or.inl h
      · exact Or.inr (List.mem_cons_of_mem _ h)
    · rcases List.mem_cons.mp he with h | h
      · exact Or.inr (h ▸ List.mem_cons_self _ _)
      · rcases ih h with h' | h'
        · exact Or.inl h'
        · exact Or.inr (List.mem_cons_of_mem _ h')

theorem assign_ordered {V : Type} (k : String) (v : V) (m : Entries V) (hm : Ordered m) :
    Ordered (assign k v m) := by
  induction m with
  | nil => simp [assign, Ordered]
  | cons hd tl ih =>
    obtain ⟨k', v'⟩ := hd
    have hpw := List.pairwise_cons.mp hm
    simp only [assign]
    split_ifs with h1 h2
    · refine List.pairwise_cons.mpr ⟨?_, hm⟩
      intro e he
      rcases List.mem_cons.mp he with h | h
      · subst h
        exact h1
      · exact strLt_trans h1 (hpw.1 e h)
    · subst h2
      exact List.pairwise_cons.mpr ⟨hpw.1, hpw.2⟩
    · refine List.pairwise_cons.mpr ⟨?_, ih hpw.2⟩
      intro e he
      rcases mem_assign k v tl e he with h | h
      · subst h
        exact strLt_of_not (by simpa using h1) h2
      · exact hpw.1 e h

theorem mem_erase {V : Type} (k : String) (m : Entries V) (e : String × V)
    (he : e ∈ erase k m) : e ∈ m := by
  induction m with
  | nil => simp [erase] at he
  | cons hd tl ih =>
    obtain ⟨k', v'⟩ := hd
    simp only [erase] at he
    split_ifs at he with h1
    · exact List.mem_cons_of_mem _ he
    · rcases List.mem_cons.mp he with h | h
      · exact h ▸ List.mem_cons_self _ _
      · exact List.mem_cons_of_mem _ (ih h)

theorem erase_ordered {V : Type} (k : String) (m : Entries V) (hm : Ordered m) :
    Ordered (erase k m) := by
  induction m with
  | nil => simp [erase, Ordered]
  | cons hd tl ih =>
    obtain ⟨k', v'⟩ := hd
    have hpw := List.pairwise_cons.mp hm
    simp only [erase]
    split_ifs with h1
    · exact hpw.2
    · exact List.pairwise_cons.mpr ⟨fun e he => hpw.1 e (mem_erase k tl e he), ih hpw.2⟩

theorem ordered_keys_nodup {V : Type} (m : Entries V) (hm : Ordered m) :
    (keys m).Nodup := by
  unfold keys
  rw [List.Nodup, List.pairwise_map]
  exact hm.imp (fun h => strLt_ne h)

theorem ofInserts_concat {V : Type} (ins : List (String × V)) (kv : String × V) :
    ofInserts (ins ++ [kv]) = assign kv.1 kv.2 (ofInserts ins) := by
  simp [ofInserts, List.foldl_append]

theorem ofInserts_ordered {V : Type} (ins : List (String × V)) : Ordered (ofInserts ins) := by
  induction ins using List.reverseRecOn with
  | nil => simp [ofInserts, Ordered]
  | append_singleton l a ih =>
    rw [ofInserts_concat]
    exact assign_ordered _ _ _ ih

theorem find_assign_self {V : Type} (k : String) (v : V) (m : Entries V) :
    find k (assign k v m) = some v := by
  induction m with
  | nil => simp [assign, find]
  | cons hd tl ih =>
    obtain ⟨k', v'⟩ := hd
    simp only [assign]
    split_ifs with h1 h2
    · simp [find]
    · simp [find]
    · simp [find, h2, ih]

theorem keys_assign_of_mem {V : Type} (k : String) (v : V) (m : Entries V)
    (hm : Ordered m) (hk : k ∈ keys m) : keys (assign k v m) = keys m := by
  induction m with
  | nil => simp [keys] at hk
  | cons hd tl ih =>
    obtain ⟨k', v'⟩ := hd
    have hpw := List.pairwise_cons.mp hm
    simp only [assign]
    split_ifs with h1 h2
    · exfalso
      simp only [keys, List.map_cons, List.mem_cons, List.mem_map] at hk
      rcases hk with h | ⟨e, he, hek⟩
      · exact strLt_ne h1 h
      · have h3 := strLt_trans (hpw.1 e he) (hek ▸ h1)
        simp [strLt_irrefl] at h3
    · simp [keys, h2]
    · have hk' : k ∈ keys tl := by
        simp only [keys, List.map_cons, List.mem_cons] at hk
        rcases hk with h | h
        · exact absurd h h2
        · exact h
      have := ih hpw.2 hk'
      simp only [keys] at this ⊢
      simp [this]

theorem assign_perm {V : Type} (k : String) (v : V) (m : Entries V) (hk : k ∉ keys m) :
    (assign k v m).Perm ((k, v) :: m) := by
  induction m with
  | nil => simp [assign]
  | cons hd tl ih =>
    obtain ⟨k', v'⟩ := hd
    simp only [keys, List.map_cons, List.mem_cons, not_or] at hk
    simp only [assign]
    split_ifs with h1 h2
    · exact List.Perm.refl _
    · exact absurd h2 hk.1
    · exact ((ih hk.2).cons (k', v')).trans (List.Perm.swap _ _ _)

theorem ofInserts_perm {V : Type} (ins : List (String × V)) (hd : (ins.map Prod.fst).Nodup) :
    (ofInserts ins).Perm ins := by
  induction ins using List.reverseRecOn with
  | nil => simp [ofInserts]
  | append_singleton l a ih =>
    rw [List.map_append, List.nodup_append] at hd
    have ihl := ih hd.1
    have hnot : a.1 ∉ keys (ofInserts l) := by
      intro hmem
      have : a.1 ∈ l.map Prod.fst := (ihl.map Prod.fst).subset hmem
      exact hd.2.2 this (by simp)
    rw [ofInserts_concat]
    refine (assign_perm a.1 a.2 _ hnot).trans ?_
    exact ((ihl.cons a).trans (List.perm_append_singleton a l).symm)

theorem ordered_perm_unique {V : Type} (m₁ m₂ : Entries V) (hp : m₁.Perm m₂)
    (h₁ : Ordered m₁) (h₂ : Ordered m₂) : m₁ = m₂ := by
  haveI : IsAntisymm (String × V) (fun a b => strLt a.1 b.1 = true) :=
    ⟨fun a b hab hba => by
      have h := strLt_trans hab hba
      simp [strLt_irrefl] at h⟩
  exact List.eq_of_perm_of_sorted hp h₁ h₂

end StdMap

namespace MWRender

namespace Animation

theorem apply_ordered (self : Animation) (c : Call) (h : StdMap.Ordered self.mStates) :
    StdMap.Ordered (Call.apply self c).mStates := by
  cases c with
  | play g p gr ad sm st sp fr l =>
    simp only [Call.apply, play]
    split
    · exact h
    · split
      · exact StdMap.assign_ordered _ _ _ h
      · exact h
  | disable g =>
    simp only [Call.apply, disable]
    exact StdMap.erase_ordered _ _ h

theorem run_ordered (calls : List Call) (self : Animation)
    (h : StdMap.Ordered self.mStates) : StdMap.Ordered (run self calls).mStates := by
  induction calls generalizing self with
  | nil => exact h
  | cons c cs ih => exact ih (Call.apply self c) (apply_ordered self c h)

/-- C2: after any sequence of `play` and `disable` calls on a freshly
constructed object the state table holds at most one playback state per group
name (its keys are pairwise distinct), and assigning a state under a group
name that is already present keeps the set of entries and replaces the state
found under that name. -/
theorem mStates_one_state_per_group (sources : List AnimSource) (calls : List Call) :
    (StdMap.keys (run (fresh sources) calls).mStates).Nodup ∧
      ∀ (groupname : String) (state : AnimState),
        groupname ∈ StdMap.keys (run (fresh sources) calls).mStates →
          StdMap.keys (StdMap.assign groupname state (run (fresh sources) calls).mStates)
              = StdMap.keys (run (fresh sources) calls).mStates ∧
            StdMap.find groupname
                (StdMap.assign groupname state (run (fresh sources) calls).mStates)
              = some state := by
  have hord : StdMap.Ordered (run (fresh sources) calls).mStates :=
    run_ordered calls (fresh sources) (by simp [fresh, StdMap.Ordered])
  refine ⟨StdMap.ordered_keys_nodup _ hord, ?_⟩
  intro g st hg
  exact ⟨StdMap.keys_assign_of_mem g st _ hord hg, StdMap.find_assign_self g st _⟩

/-- C6 (counterexample): two states inserted under the distinct group names
`walk` and then `idle` are visited by the iteration of the table as `idle`,
`walk`, which is not the order of insertion. -/
theorem AnimStateMap_not_insertion_order :
    (["walk", "idle"] : List String).Nodup ∧
      StdMap.keys
          (StdMap.ofInserts [("walk", AnimState.AnimState), ("idle", AnimState.AnimState)])
        = ["idle", "walk"] ∧
      (StdMap.ofInserts [("walk", AnimState.AnimState), ("idle", AnimState.AnimState)]
        : AnimStateMap)
        ≠ [("walk", AnimState.AnimState), ("idle", AnimState.AnimState)] := by
  refine ⟨by decide, by decide, ?_⟩
  intro h
  have hk := congrArg StdMap.keys h
  revert hk
  decide

/-- C6 (amended): for every sequence of insertions of distinct group names,
iterating the table visits exactly the inserted states, in strictly ascending
order of group name (the key order of `std::map`); the order of iteration
does not depend on the order of insertion. -/
theorem AnimStateMap_iteration_key_order (ins : List (String × AnimState))
    (hd : (ins.map Prod.fst).Nodup) :
    ((StdMap.ofInserts ins : AnimStateMap)).Perm ins ∧
      StdMap.Ordered (StdMap.ofInserts ins : AnimStateMap) ∧
      ∀ ins' : List (String × AnimState), ins'.Perm ins →
        (StdMap.ofInserts ins' : AnimStateMap) = StdMap.ofInserts ins := by
  refine ⟨StdMap.ofInserts_perm ins hd, StdMap.ofInserts_ordered ins, ?_⟩
  intro ins' hp
  have hd' : (ins'.map Prod.fst).Nodup := (hp.map Prod.fst).nodup_iff.mpr hd
  exact StdMap.ordered_perm_unique _ _
    (((StdMap.ofInserts_perm ins' hd').trans hp).trans (StdMap.ofInserts_perm ins hd).symm)
    (StdMap.ofInserts_ordered ins') (StdMap.ofInserts_ordered ins)

theorem findSource_eq_none (sources : List AnimSource) (start stop : String)
    (h : ∀ src ∈ sources, hasMarkerPair src start stop = false) :
    findSource sources start stop = none := by
  simp only [findSource, List.find?_eq_none, List.mem_reverse]
  intro src hsrc
  simp [h src hsrc]

theorem reset_false_iff (state : AnimState) (keys : TextKeyMap)
    (groupname start stop : String) (startpoint : CFloat) :
    (reset state keys groupname start stop startpoint).1 = false ↔
      (findMarker keys start = none ∨ findMarker keys stop = none ∨
        findMarker keys start = findMarker keys stop) := by
  unfold reset
  cases h0 : findMarker keys start with
  | none => simp
  | some t0 =>
    cases h1 : findMarker keys stop with
    | none => simp
    | some t1 =>
      by_cases ht : t0 = t1
      · simp [ht]
      · simp [ht]

/-- C3 (counterexample): with a single source that has the start marker but
not the stop marker, no source contains both markers and `reset` returns
false, yet `play`, which is declared `void`, hands nothing back: its result is
not the boolean false. -/
theorem play_returns_no_value :
    (∀ src ∈ (fresh [exampleSourceNoStop]).mAnimSources,
        hasMarkerPair src "attack: start" "attack: stop" = false) ∧
      (reset AnimState.AnimState exampleSourceNoStop.mTextKeys "attack"
          "attack: start" "attack: stop" 0).1 = false ∧
      (play (fresh [exampleSourceNoStop]) "attack" 5 Group_UpperBody true 1
          "attack: start" "attack: stop" 0 1).1 = Returned.void ∧
      (play (fresh [exampleSourceNoStop]) "attack" 5 Group_UpperBody true 1
          "attack: start" "attack: stop" 0 1).1 ≠ Returned.bool false := by
  refine ⟨by decide, by decide, by decide, by decide⟩

/-- C3 (amended): `play` is declared `void` and returns nothing.  Whenever no
source contains both the start and the stop marker, or the two markers resolve
to the identical timestamp in the source the pair is found in, `play` leaves
the object, and with it the state table and any prior state for that group
name, unchanged.  The underlying `reset` returns false exactly when a marker
is not found in the marker map or the two markers resolve to the identical
timestamp. -/
theorem play_failure_unchanged (self : Animation) (groupname : String)
    (priority groups : Int) (autodisable : Bool) (speedmult : CFloat)
    (start stop : String) (startpoint : CFloat) (loops : Nat) :
    (((∀ src ∈ self.mAnimSources, hasMarkerPair src start stop = false) ∨
        (∃ src, findSource self.mAnimSources start stop = some src ∧
          findMarker src.mTextKeys start = findMarker src.mTextKeys stop)) →
      play self groupname priority groups autodisable speedmult start stop startpoint loops
          = (Returned.void, self) ∧
        (play self groupname priority groups autodisable speedmult start stop startpoint
            loops).2.mStates = self.mStates ∧
        StdMap.find groupname
            (play self groupname priority groups autodisable speedmult start stop startpoint
              loops).2.mStates
          = StdMap.find groupname self.mStates) ∧
      ∀ (state : AnimState) (keys : TextKeyMap),
        (reset state keys groupname start stop startpoint).1 = false ↔
          (findMarker keys start = none ∨ findMarker keys stop = none ∨
            findMarker keys start = findMarker keys stop) := by
  refine ⟨?_, fun state keys => reset_false_iff state keys groupname start stop startpoint⟩
  intro h
  have hplay : play self groupname priority groups autodisable speedmult start stop
      startpoint loops = (Returned.void, self) := by
    rcases h with h | ⟨src, hsrc, heq⟩
    · simp [play, findSource_eq_none _ _ _ h]
    · have hr : (reset AnimState.AnimState src.mTextKeys groupname start stop
          startpoint).1 = false :=
        (reset_false_iff _ _ _ _ _ _).mpr (Or.inr (Or.inr heq))
      simp only [play, hsrc]
      split
      · rename_i state hst
        rw [hst] at hr
        simp at hr
      · rfl
  rw [hplay]
  exact ⟨rfl, rfl, rfl⟩

/-- C2 (witness): after `play` of the attack group on the example source the
group `attack` is present, and assigning another state under that name keeps
the keys and replaces the state. -/
theorem mStates_one_state_per_group_witness :
    "attack" ∈ StdMap.keys
        (run (fresh [exampleSource])
          [Call.play "attack" 5 Group_UpperBody true 1 "attack: start" "attack: stop" 0 1]).mStates ∧
      StdMap.keys
          (StdMap.assign "attack" exampleState
            (run (fresh [exampleSource])
              [Call.play "attack" 5 Group_UpperBody true 1 "attack: start" "attack: stop" 0
                1]).mStates)
        = StdMap.keys
          (run (fresh [exampleSource])
            [Call.play "attack" 5 Group_UpperBody true 1 "attack: start" "attack: stop" 0
              1]).mStates ∧
      StdMap.find "attack"
          (StdMap.assign "attack" exampleState
            (run (fresh [exampleSource])
              [Call.play "attack" 5 Group_UpperBody true 1 "attack: start" "attack: stop" 0
                1]).mStates)
        = some exampleState :=
  have h : "attack" ∈ StdMap.keys
      (run (fresh [exampleSource])
        [Call.play "attack" 5 Group_UpperBody true 1 "attack: start" "attack: stop" 0
          1]).mStates := by
    decide
  ⟨h, (mStates_one_state_per_group [exampleSource]
    [Call.play "attack" 5 Group_UpperBody true 1 "attack: start" "attack: stop" 0 1]).2
    "attack" exampleState h⟩

/-- C3 (witness): with the single example source whose start and stop markers
coincide, the pair is found and resolves to one timestamp, and `play` leaves
the table, holding a prior `attack` state, unchanged. -/
theorem play_failure_unchanged_witness :
    ((∀ src ∈ [exampleSourceZeroLength],
          hasMarkerPair src "attack: start" "attack: stop" = false) ∨
        (∃ src, findSource [exampleSourceZeroLength] "attack: start" "attack: stop"
            = some src ∧
          findMarker src.mTextKeys "attack: start"
            = findMarker src.mTextKeys "attack: stop")) ∧
      play { mAnimSources := [exampleSourceZeroLength], mStates := [("attack", exampleState)] }
          "attack" 5 Group_UpperBody true 1 "attack: start" "attack: stop" 0 1
        = (Returned.void,
            { mAnimSources := [exampleSourceZeroLength],
              mStates := [("attack", exampleState)] }) :=
  have h : (∀ src ∈ [exampleSourceZeroLength],
        hasMarkerPair src "attack: start" "attack: stop" = false) ∨
      (∃ src, findSource [exampleSourceZeroLength] "attack: start" "attack: stop"
          = some src ∧
        findMarker src.mTextKeys "attack: start"
          = findMarker src.mTextKeys "attack: stop") :=
    Or.inr ⟨exampleSourceZeroLength, by decide, by decide⟩
  ⟨h, ((play_failure_unchanged
    { mAnimSources := [exampleSourceZeroLength], mStates := [("attack", exampleState)] }
    "attack" 5 Group_UpperBody true 1 "attack: start" "attack: stop" 0 1).1 h).1⟩

/-- C6 (witness): the amended statement at the insertions `walk` then `idle`. -/
theorem AnimStateMap_iteration_key_order_witness :
    ([("walk", exampleState), ("idle", exampleState)].map Prod.fst).Nodup ∧
      (StdMap.ofInserts [("walk", exampleState), ("idle", exampleState)] : AnimStateMap).Perm
        [("walk", exampleState), ("idle", exampleState)] ∧
      StdMap.Ordered
        (StdMap.ofInserts [("walk", exampleState), ("idle", exampleState)] : AnimStateMap) :=
  have h : ([("walk", exampleState), ("idle", exampleState)].map Prod.fst).Nodup := by
    decide
  ⟨h, (AnimStateMap_iteration_key_order _ h).1, (AnimStateMap_iteration_key_order _ h).2.1⟩

/-- C4: the four discrete regions are the single-bit masks `1 <<< i` for
`i < sNumGroups = 4`, in declaration order; they are pairwise distinct, the
bitwise AND of any two different ones is 0, and their number is `sNumGroups`. -/
theorem discreteGroups_disjoint :
    discreteGroups = (List.range sNumGroups).map (fun i => 1 <<< i) ∧
      sNumGroups = 4 ∧
      discreteGroups.length = sNumGroups ∧
      discreteGroups.Nodup ∧
      ∀ a ∈ discreteGroups, ∀ b ∈ discreteGroups, a ≠ b → a &&& b = 0 := by
  refine ⟨by decide, rfl, by decide, by decide, ?_⟩
  decide

/-- C5: `Group_UpperBody` is the union of torso, left arm and right arm and
does not include the lower body; `Group_All` includes every discrete region
and nothing else, it equals `2 ^ sNumGroups - 1 = 15`, and every bitmask `m`
of discrete regions (every `m < 2 ^ sNumGroups`) satisfies
`m &&& Group_All = m`. -/
theorem composite_masks :
    Group_UpperBody = Group_Torso ||| Group_LeftArm ||| Group_RightArm ∧
      Group_UpperBody &&& Group_LowerBody = 0 ∧
      (∀ g ∈ discreteGroups, g &&& Group_All = g) ∧
      Group_All = discreteGroups.foldl (fun acc g => acc ||| g) 0 ∧
      Group_All = 2 ^ sNumGroups - 1 ∧
      Group_All = 15 ∧
      ∀ m : Nat, m < 2 ^ sNumGroups → m &&& Group_All = m := by
  refine ⟨rfl, by decide, by decide, by decide, by decide, by decide, ?_⟩
  intro m hm
  have h : Group_All = 2 ^ sNumGroups - 1 := by decide
  rw [h, Nat.and_pow_two_sub_one_eq_mod, Nat.mod_eq_of_lt hm]

/-- C4 (witness): torso and left arm are different discrete regions and share
no bit. -/
theorem discreteGroups_disjoint_witness :
    Group_Torso ≠ Group_LeftArm ∧ Group_Torso &&& Group_LeftArm = 0 :=
  have h : Group_Torso ≠ Group_LeftArm := by decide
  ⟨h, discreteGroups_disjoint.2.2.2.2 Group_Torso (by decide) Group_LeftArm (by decide) h⟩

/-- C5 (witness): the bitmask of lower body and left arm is below
`2 ^ sNumGroups` and is kept by the AND with `Group_All`. -/
theorem composite_masks_witness :
    Group_LowerBody ||| Group_LeftArm < 2 ^ sNumGroups ∧
      (Group_LowerBody ||| Group_LeftArm) &&& Group_All = Group_LowerBody ||| Group_LeftArm :=
  have h : Group_LowerBody ||| Group_LeftArm < 2 ^ sNumGroups := by decide
  ⟨h, composite_masks.2.2.2.2.2.2 _ h⟩

/-- C7: the neutral evaluator is a constant zero source: after any finite
sequence of `setValue` calls with arbitrary values the object is unchanged and
`getValue` returns 0. -/
theorem NullAnimationValue_constant_zero (v : NullAnimationValue)
    (values : List Ogre.Real) :
    values.foldl NullAnimationValue.setValue v = v ∧
      (values.foldl NullAnimationValue.setValue v).getValue = 0 := by
  constructor
  · induction values with
    | nil => rfl
    | cons x xs ih => simp [List.foldl, NullAnimationValue.setValue]
  · rfl

/-- C8: a default-constructed playback state has all four marker times
`≥ 0`, loop-start `≤` loop-stop, start `≤` stop, its current time inside
`[mStartTime, mStopTime]`; it is not playing, has priority 0, targets no
region, has loop count 0, speed multiplier 1 and auto-disable set. -/
theorem AnimState_default_constraints :
    0 ≤ AnimState.AnimState.mStartTime ∧
      0 ≤ AnimState.AnimState.mLoopStartTime ∧
      0 ≤ AnimState.AnimState.mLoopStopTime ∧
      0 ≤ AnimState.AnimState.mStopTime ∧
      AnimState.AnimState.mLoopStartTime ≤ AnimState.AnimState.mLoopStopTime ∧
      AnimState.AnimState.mStartTime ≤ AnimState.AnimState.mStopTime ∧
      AnimState.AnimState.mStartTime ≤ AnimState.AnimState.mTime ∧
      AnimState.AnimState.mTime ≤ AnimState.AnimState.mStopTime ∧
      AnimState.AnimState.mPlaying = false ∧
      AnimState.AnimState.mPriority = 0 ∧
      AnimState.AnimState.mGroups = 0 ∧
      (∀ grp, AnimState.AnimState.mGroups.testBit grp = false) ∧
      AnimState.AnimState.mLoopCount = 0 ∧
      AnimState.AnimState.mSpeedMult = 1 ∧
      AnimState.AnimState.mAutoDisable = true := by
  simp [AnimState.AnimState, Int.testBit]

end Animation

end MWRender

namespace ESM

/-- C9: `Probe::load` undoes `Probe::save`.  `save` emits `MODL`, `FNAM`,
`PBDT` with 16 bytes, then `SCRI` and `ITEX`, each of the last two omitted when
its string is empty; loading that sequence into any record succeeds, consumes
all of it, and yields the model, name, data, script and icon of the saved
record (an omitted optional sub-record read back as the empty string), the ID
of the record loaded into being untouched. -/
theorem Probe.load_save (p q : Probe) :
    (p.save { written := [] }).written =
        [{ name := "MODL", content := SubData.string p.mModel },
          { name := "FNAM", content := SubData.string p.mName },
          { name := "PBDT", content := SubData.data p.mData 16 }]
          ++ (if p.mScript = "" then []
              else [{ name := "SCRI", content := SubData.string p.mScript }])
          ++ (if p.mIcon = "" then []
              else [{ name := "ITEX", content := SubData.string p.mIcon }]) ∧
      q.load (p.save { written := [] }).reader =
        Except.ok
          ({ q with
              mModel := p.mModel, mName := p.mName, mData := p.mData
              mScript := p.mScript, mIcon := p.mIcon },
            { pending := [] }) := by
  by_cases hs : p.mScript = "" <;> by_cases hi : p.mIcon = "" <;>
    simp [Probe.save, Probe.load, ESMWriter.reader, ESMWriter.writeHNCString,
      ESMWriter.writeHNOString, ESMWriter.writeHNOCString, ESMWriter.writeHNT,
      ESMReader.getHNString, ESMReader.getHNOString, ESMReader.getHNT, hs, hi,
      bind, Except.bind, pure, Except.pure]

/-- C10: `Probe::blank` zeroes the four data members, empties name, model,
icon and script, leaves the ID unchanged, and is idempotent. -/
theorem Probe.blank_default (p : Probe) :
    p.blank.mData.mWeight = 0 ∧ p.blank.mData.mValue = 0 ∧
      p.blank.mData.mQuality = 0 ∧ p.blank.mData.mUses = 0 ∧
      p.blank.mName = "" ∧ p.blank.mModel = "" ∧ p.blank.mIcon = "" ∧
      p.blank.mScript = "" ∧ p.blank.mId = p.mId ∧ p.blank.blank = p.blank := by
  simp [Probe.blank]

end ESM
